import Mathlib

/-!
Shallow embedding of the masarif-app conversational expense/appointment
manager (TypeScript/React) and proofs about its core components:

* NotificationScheduler — the recurring `checkAppointments` cron in `App`
  (src/unnamed/part_000, lines 19-62);
* ToolExecutionBridge — `executeExpenseTool` and the persistence layer
  `storageService` (src/unnamed/part_000);
* ChatDispatcher — `handleSend` / `sendMessageWithRetry` in ChatBot.tsx;
* LiveSessionManager — the live audio callbacks in Appointments.tsx
  (LiveAssistant component).

Modelling conventions:
* wall-clock instants and date-times are integer milliseconds since the
  epoch (the code compares `new Date(x).getTime()` values);
* JavaScript objects become structures; absent fields become `Option`;
* exceptions become `Except String`; a thrown value caught by a
  `try/catch` is the `.error` branch;
* the browser `localStorage` is a `Storage` structure threaded through the
  operations; a possible storage exception is modelled by the oracle field
  `fail : Option String` (when set, every localStorage-touching operation
  raises that message);
* `crypto.randomUUID()` is modelled by a fresh-id counter, `Date.now()` by
  the `now` field of the storage;
* appointment status is kept as a raw `String` exactly as the JavaScript
  runtime stores it (`"scheduled" | "completed" | "cancelled"`).
-/

namespace Masarif

/-- A user record (src/types.ts, `User`). `budget` is optional. -/
structure User where
  email : String
  name : String
  budget : Option Int
deriving DecidableEq, Repr

/-- An expense record (src/types.ts, `Expense`); `date` in epoch ms. -/
structure Expense where
  id : String
  userId : String
  amount : Int
  category : String
  description : String
  date : Int
  createdAt : Int
deriving DecidableEq, Repr

/-- An appointment record (src/types.ts, `Appointment`); `date` in epoch ms. -/
structure Appointment where
  id : String
  userId : String
  title : String
  date : Int
  status : String
  type : String
  createdAt : Int
  notified : Bool
deriving DecidableEq, Repr

/-! ### NotificationScheduler

`checkAppointments` in src/unnamed/part_000 (lines 23-54): for each
appointment of the current user with `status === 'scheduled'` and
`!appt.notified`, compute `diff = apptTime - now` and fire (surface the
alert and persist `notified = true`) when
`diff <= 60000 && diff > -60000 * 60`. -/

/-- The alert-window test of the scheduler, exactly as written in the code:
`diff <= 60000 && diff > -60000 * 60` (milliseconds). -/
def alertWindow (diff : Int) : Bool :=
  decide (diff ≤ 60000) && decide (diff > -60000 * 60)

/-- One scheduler visit to a single appointment at wall-clock `now`:
returns whether the alert fires and the (possibly updated) appointment.
Firing persists `notified := true`; nothing else changes. -/
def checkAppointment (now : Int) (a : Appointment) : Bool × Appointment :=
  if a.status = "scheduled" && !a.notified then
    if alertWindow (a.date - now) then
      (true, { a with notified := true })
    else
      (false, a)
  else
    (false, a)

/-- One full scheduler check over the loaded appointment list. -/
def checkAppointments (now : Int) (appts : List Appointment) :
    List (Bool × Appointment) :=
  appts.map (checkAppointment now)

/-- The state of one appointment after a sequence of scheduler checks at
the given wall-clock instants. -/
def runChecks (ts : List Int) (a : Appointment) : Appointment :=
  ts.foldl (fun x t => (checkAppointment t x).2) a

/-- How many times the alert fires for one appointment over a sequence of
scheduler checks. -/
def countFires (ts : List Int) (a : Appointment) : Nat :=
  match ts with
  | [] => 0
  | t :: rest =>
    let step := checkAppointment t a
    (if step.1 then 1 else 0) + countFires rest step.2

/-- The alert window as the claim words it: `diff` at most 60 seconds in
the future and no more than one hour in the past (closed bound). Stated
from the spec's words, to be compared with `alertWindow` from the source. -/
def specAlertWindow (diff : Int) : Bool :=
  decide (diff ≤ 60000) && decide (-3600000 ≤ diff)

/-- Firing as the claim words it, built on `specAlertWindow`. -/
def specFires (now : Int) (a : Appointment) : Bool :=
  a.status = "scheduled" && !a.notified && specAlertWindow (a.date - now)

/-- A concrete scheduled, never-notified appointment due at epoch instant 0. -/
def apptAtZero : Appointment :=
  { id := "a1", userId := "u@example.com", title := "Dentist", date := 0,
    status := "scheduled", type := "meeting", createdAt := 0, notified := false }

/-- A scheduler visit to an already-notified appointment is a no-op. -/
theorem checkAppointment_of_notified (t : Int) (a : Appointment)
    (h : a.notified = true) : checkAppointment t a = (false, a) := by
  simp [checkAppointment, h]

/-- If the alert fires, the appointment was scheduled and not yet notified,
and the wall clock was inside the alert window. -/
theorem checkAppointment_fires_imp (t : Int) (a : Appointment)
    (h : (checkAppointment t a).1 = true) :
    a.status = "scheduled" ∧ a.notified = false ∧
      alertWindow (a.date - t) = true := by
  by_cases hs : a.status = "scheduled" <;> by_cases hn : a.notified <;>
    by_cases hw : alertWindow (a.date - t) <;>
      simp_all [checkAppointment]

/-- A scheduler visit that does not fire leaves the appointment unchanged. -/
theorem checkAppointment_no_fire (t : Int) (a : Appointment)
    (h : (checkAppointment t a).1 = false) : (checkAppointment t a).2 = a := by
  by_cases hs : a.status = "scheduled" <;> by_cases hn : a.notified <;>
    by_cases hw : alertWindow (a.date - t) <;>
      simp_all [checkAppointment]

/-- A scheduler visit that fires persists `notified = true`. -/
theorem checkAppointment_fire_notified (t : Int) (a : Appointment)
    (h : (checkAppointment t a).1 = true) :
    (checkAppointment t a).2.notified = true := by
  by_cases hs : a.status = "scheduled" <;> by_cases hn : a.notified <;>
    by_cases hw : alertWindow (a.date - t) <;>
      simp_all [checkAppointment]

/-- The scheduler never changes an appointment's status. -/
theorem checkAppointment_snd_status (t : Int) (a : Appointment) :
    (checkAppointment t a).2.status = a.status := by
  by_cases hs : a.status = "scheduled" <;> by_cases hn : a.notified <;>
    by_cases hw : alertWindow (a.date - t) <;>
      simp_all [checkAppointment]

/-- Once notified, any sequence of scheduler checks is a no-op. -/
theorem runChecks_of_notified (ts : List Int) (a : Appointment)
    (h : a.notified = true) : runChecks ts a = a := by
  induction ts with
  | nil => rfl
  | cons t rest ih =>
    show runChecks rest (checkAppointment t a).2 = a
    rw [checkAppointment_of_notified t a h]
    exact ih

/-- Once notified, the alert never fires again over any check sequence. -/
theorem countFires_of_notified (ts : List Int) (a : Appointment)
    (h : a.notified = true) : countFires ts a = 0 := by
  induction ts with
  | nil => rfl
  | cons t rest ih =>
    show (if (checkAppointment t a).1 then 1 else 0) +
        countFires rest (checkAppointment t a).2 = 0
    rw [checkAppointment_of_notified t a h]
    simpa using ih

/-- Claim C1 counterexample: an appointment exactly one hour overdue is
"no more than one hour in the past" in the claim's words (so the claim
says it fires), yet the code's strict bound `diff > -60000 * 60` rejects
it: `checkAppointments` does not fire the alert there. -/
theorem alert_window_boundary_counterexample :
    specFires 3600000 apptAtZero = true ∧
      (checkAppointment 3600000 apptAtZero).1 = false := by
  constructor <;> rfl

/-- Claim C1 (amended): the scheduler fires the alert for an appointment
iff its status is "scheduled", it is not yet notified, and
`diff = date - now` is at most 60 seconds in the future and strictly less
than one hour in the past; in particular an appointment 2 hours overdue
never fires and a scheduled, unnotified one 45 minutes overdue does. -/
theorem checkAppointment_fires_iff (now : Int) (a : Appointment) :
    ((checkAppointment now a).1 = true ↔
      a.status = "scheduled" ∧ a.notified = false ∧
        a.date - now ≤ 60000 ∧ -3600000 < a.date - now)
    ∧ (checkAppointment (a.date + 7200000) a).1 = false
    ∧ (a.status = "scheduled" → a.notified = false →
        (checkAppointment (a.date + 2700000) a).1 = true) := by
  refine ⟨?_, ?_, ?_⟩
  · by_cases hs : a.status = "scheduled" <;> by_cases hn : a.notified <;>
      by_cases hw : alertWindow (a.date - now) = true <;>
        simp_all [checkAppointment, alertWindow] <;>
          (try omega) <;> split <;> simp_all <;> omega
  · by_cases hs : a.status = "scheduled" <;> by_cases hn : a.notified <;>
      simp_all [checkAppointment, alertWindow] <;>
        (try omega) <;> split <;> simp_all <;> omega
  · intro hs hn
    simp [checkAppointment, alertWindow, hs, hn]
    try omega

/-- Witness for C1's amended theorem at a concrete appointment. -/
theorem checkAppointment_fires_iff_witness :
    (checkAppointment (apptAtZero.date + 2700000) apptAtZero).1 = true :=
  (checkAppointment_fires_iff 0 apptAtZero).2.2 rfl rfl

/-- Over any sequence of checks, one appointment fires at most once. -/
theorem countFires_le_one (ts : List Int) (a : Appointment) :
    countFires ts a ≤ 1 := by
  induction ts generalizing a with
  | nil => exact Nat.zero_le 1
  | cons t rest ih =>
    show (if (checkAppointment t a).1 then 1 else 0) +
        countFires rest (checkAppointment t a).2 ≤ 1
    by_cases hf : (checkAppointment t a).1 = true
    · rw [countFires_of_notified rest _ (checkAppointment_fire_notified t a hf)]
      simp [hf]
    · rw [checkAppointment_no_fire t a (by simpa using hf)]
      simpa [hf] using ih a

/-- The flag after a run: `notified` holds at the end iff it held at the
start or some check fired; the flag never reverts to `false`. -/
theorem runChecks_notified_eq (ts : List Int) (a : Appointment) :
    (runChecks ts a).notified = (a.notified || decide (countFires ts a ≠ 0)) := by
  induction ts generalizing a with
  | nil => simp [runChecks, countFires]
  | cons t rest ih =>
    show (runChecks rest (checkAppointment t a).2).notified = _
    by_cases hf : (checkAppointment t a).1 = true
    · have hn := checkAppointment_fire_notified t a hf
      rw [runChecks_of_notified rest _ hn, hn]
      simp [countFires, hf]
    · have h2 := checkAppointment_no_fire t a (by simpa using hf)
      have hc : countFires (t :: rest) a = countFires rest a := by
        show (if (checkAppointment t a).1 then 1 else 0) +
            countFires rest (checkAppointment t a).2 = _
        rw [h2]
        simp [hf]
      rw [h2, ih a, hc]

/-- Claim C2: over any sequence of scheduler checks, an appointment's
alert fires (and hence `notified` transitions false to true) at most once;
every firing check sees status "scheduled" and `notified = false` at that
instant; an appointment already notified never fires again and its flag
never reverts. -/
theorem notified_transitions_at_most_once (ts : List Int) (a : Appointment) :
    countFires ts a ≤ 1
    ∧ (∀ i : Fin ts.length,
        (checkAppointment (ts.get i) (runChecks (ts.take i) a)).1 = true →
          (runChecks (ts.take i) a).status = "scheduled"
          ∧ (runChecks (ts.take i) a).notified = false)
    ∧ (∀ i : Fin ts.length,
        (runChecks (ts.take i) a).notified = true →
          (checkAppointment (ts.get i) (runChecks (ts.take i) a)).1 = false)
    ∧ (a.notified = true → countFires ts a = 0)
    ∧ (runChecks ts a).notified = (a.notified || decide (countFires ts a ≠ 0)) := by
  refine ⟨countFires_le_one ts a, ?_, ?_, countFires_of_notified ts a,
    runChecks_notified_eq ts a⟩
  · intro i hf
    have h := checkAppointment_fires_imp _ _ hf
    exact ⟨h.1, h.2.1⟩
  · intro i hn
    rw [checkAppointment_of_notified _ _ hn]

/-- Witness for C2 at a concrete two-check run: the 45-minutes-overdue
appointment fires exactly once over checks at 2 700 000 ms and a minute
later. -/
theorem notified_transitions_at_most_once_witness :
    countFires [2700000, 2760000] apptAtZero ≤ 1 ∧
      countFires [2700000, 2760000]
        { apptAtZero with notified := true } = 0 :=
  ⟨(notified_transitions_at_most_once [2700000, 2760000] apptAtZero).1,
   (notified_transitions_at_most_once [2700000, 2760000]
      { apptAtZero with notified := true }).2.2.2.1 rfl⟩

/-! ### Persistence layer (`storageService`, src/unnamed/part_000 lines 349-534)

`localStorage` is modelled by the `Storage` structure threaded through
every operation. The `fail` oracle models a storage exception: when set,
each localStorage-touching operation raises that message (`Except.error`).
`Array.prototype.sort` with a date comparator is modelled by insertion
sort on the same key. -/

/-- Insert into a list sorted by the boolean relation `le`. -/
def insertSorted {α : Type} (le : α → α → Bool) (x : α) : List α → List α
  | [] => [x]
  | y :: ys => if le x y then x :: y :: ys else y :: insertSorted le x ys

/-- Insertion sort by the boolean relation `le`; models the JS
`Array.prototype.sort` comparator calls in `getExpenses` and
`getAppointments`. -/
def sortListBy {α : Type} (le : α → α → Bool) : List α → List α
  | [] => []
  | x :: xs => insertSorted le x (sortListBy le xs)

/-- Sorting is a permutation: membership is preserved. -/
theorem mem_insertSorted {α : Type} (le : α → α → Bool) (x : α)
    (l : List α) (a : α) : a ∈ insertSorted le x l ↔ a = x ∨ a ∈ l := by
  induction l with
  | nil => simp [insertSorted]
  | cons y ys ih =>
    by_cases h : le x y = true <;> simp [insertSorted, h, ih] <;> tauto

/-- Membership in a sorted list equals membership in the original. -/
theorem mem_sortListBy {α : Type} (le : α → α → Bool) (l : List α) (a : α) :
    a ∈ sortListBy le l ↔ a ∈ l := by
  induction l with
  | nil => simp [sortListBy]
  | cons x xs ih => simp [sortListBy, mem_insertSorted, ih]

/-- The browser storage plus the modelling oracles: `fail` (a pending
localStorage exception), `nextId` (the `crypto.randomUUID` stream) and
`now` (the `Date.now()` clock). -/
structure Storage where
  users : List User
  expenses : List Expense
  appointments : List Appointment
  currentUser : Option User
  fail : Option String
  nextId : Nat
  now : Int
deriving Repr

/-- Replace the first expense with the given id (the `findIndex` / assign
pattern of `storageService.updateExpense`); no match leaves the list as is. -/
def replaceExpenseById (e : Expense) : List Expense → List Expense
  | [] => []
  | x :: xs => if x.id == e.id then e :: xs else x :: replaceExpenseById e xs

/-- Replace the first appointment with the given id
(`storageService.updateAppointment`). -/
def replaceApptById (a : Appointment) : List Appointment → List Appointment
  | [] => []
  | x :: xs => if x.id == a.id then a :: xs else x :: replaceApptById a xs

/-- Replace the first user with the given email
(`storageService.updateUser`); found also refreshes `currentUser`. -/
def replaceUserByEmail (u : User) : List User → List User
  | [] => []
  | x :: xs => if x.email == u.email then u :: xs else x :: replaceUserByEmail u xs

/-- Raise the pending storage exception, if any. -/
def Storage.check (st : Storage) : Except String Unit :=
  match st.fail with
  | some m => Except.error m
  | none => Except.ok ()

/-- `storageService.getExpenses`: the caller's expenses, date descending. -/
def getExpensesS (st : Storage) (userId : String) : Except String (List Expense) := do
  st.check
  return sortListBy (fun a b => decide (b.date ≤ a.date))
    (st.expenses.filter (fun e => e.userId == userId))

/-- `storageService.addExpense`: assign a fresh id and `createdAt`, append. -/
def addExpenseS (st : Storage) (userId : String) (amount : Int)
    (category description : String) (date : Int) :
    Except String (Expense × Storage) := do
  st.check
  let e : Expense :=
    { id := "uuid-" ++ toString st.nextId, userId := userId, amount := amount,
      category := category, description := description, date := date,
      createdAt := st.now }
  return (e, { st with expenses := st.expenses ++ [e], nextId := st.nextId + 1 })

/-- `storageService.updateExpense`: replace in place when the id exists. -/
def updateExpenseS (st : Storage) (e : Expense) : Except String Storage := do
  st.check
  return { st with expenses := replaceExpenseById e st.expenses }

/-- `storageService.getAppointments`: the caller's appointments, date
ascending. -/
def getAppointmentsS (st : Storage) (userId : String) :
    Except String (List Appointment) := do
  st.check
  return sortListBy (fun a b => decide (a.date ≤ b.date))
    (st.appointments.filter (fun a => a.userId == userId))

/-- `storageService.addAppointment`: fresh id, status "scheduled",
`notified = false`, append. -/
def addAppointmentS (st : Storage) (userId title : String) (date : Int)
    (type : String) : Except String (Appointment × Storage) := do
  st.check
  let a : Appointment :=
    { id := "uuid-" ++ toString st.nextId, userId := userId, title := title,
      date := date, status := "scheduled", type := type,
      createdAt := st.now, notified := false }
  let st2 := { st with appointments := st.appointments ++ [a], nextId := st.nextId + 1 }
  return (a, st2)

/-- `storageService.updateAppointment`: replace in place when the id exists. -/
def updateAppointmentS (st : Storage) (a : Appointment) :
    Except String Storage := do
  st.check
  return { st with appointments := replaceApptById a st.appointments }

/-- `storageService.deleteAppointment`: filter the id out (no-op when the
id is absent). -/
def deleteAppointmentS (st : Storage) (id : String) : Except String Storage := do
  st.check
  return { st with appointments := st.appointments.filter (fun a => !(a.id == id)) }

/-- `storageService.updateUser`: replace the record when the email exists,
in that case also refresh the current user; always echo the argument back. -/
def updateUserS (st : Storage) (u : User) : Except String (User × Storage) := do
  st.check
  if st.users.any (fun x => x.email == u.email) then
    let st2 := { st with users := replaceUserByEmail u st.users, currentUser := some u }
    return (u, st2)
  else
    return (u, st)

/-- The JavaScript `||` on an optional number: absent and `0` (the falsy
numbers representable here) fall back to the default. -/
def jsOrInt (v : Option Int) (d : Int) : Int :=
  match v with
  | none => d
  | some x => if x == 0 then d else x

/-- The JavaScript `||` on an optional string: absent and the empty string
fall back to the default. -/
def jsOrStr (v : Option String) (d : String) : String :=
  match v with
  | none => d
  | some s => if s == "" then d else s

/-- `storageService.register` (src/unnamed/part_000 lines 375-395):
duplicate emails are rejected; the stored budget is
`user.budget || 5000`; the new user is appended and becomes current. -/
def register (st : Storage) (user : User) : Except String (User × Storage) := do
  st.check
  if st.users.any (fun x => x.email == user.email) then
    Except.error "User already exists"
  else
    let newUser : User := { user with budget := some (jsOrInt user.budget 5000) }
    let st2 := { st with users := st.users ++ [newUser], currentUser := some newUser }
    return (newUser, st2)

/-! ### ToolExecutionBridge (`executeExpenseTool`, src/unnamed/part_000
lines 276-349)

The argument object of a function call; fields absent from the call are
`none`. Fields marked required by the tool declarations (`expenseTools`)
are read with a default that is never exercised on schema-conforming
calls. The `try/catch` of `executeExpenseTool` is split into
`executeExpenseToolBody` (the `try` block, which may raise) and
`executeExpenseTool` (the catch, which converts a raised message into an
`error` result). -/

/-- The `args : any` object handed to `executeExpenseTool`. -/
structure ToolArgs where
  id : Option String := none
  amount : Option Int := none
  category : Option String := none
  description : Option String := none
  date : Option Int := none
  title : Option String := none
  status : Option String := none
  type : Option String := none
  prefilledDescription : Option String := none
deriving DecidableEq, Repr

/-- The result object of a tool execution (`{ result?, error?, expense?,
appointment?, user? }`). -/
structure ToolResult where
  result : Option String := none
  error : Option String := none
  expense : Option Expense := none
  appointment : Option Appointment := none
  user : Option User := none
deriving DecidableEq, Repr

/-- `{ ...existing, ...args }` in the `updateExpense` branch: each field
provided by the call overwrites the stored one. -/
def mergeExpense (existing : Expense) (args : ToolArgs) : Expense :=
  { existing with
    id := args.id.getD existing.id,
    amount := args.amount.getD existing.amount,
    category := args.category.getD existing.category,
    description := args.description.getD existing.description,
    date := args.date.getD existing.date }

/-- A plain rendering of an expense record; stands in for the
`JSON.stringify` in the `getExpenses` branch (no claim depends on the
exact format). -/
def renderExpense (e : Expense) : String :=
  e.id ++ "|" ++ e.userId ++ "|" ++ toString e.amount ++ "|" ++ e.category
    ++ "|" ++ e.description ++ "|" ++ toString e.date ++ "|" ++ toString e.createdAt

/-- A plain rendering of the appointment summary (id, title, time, status)
built by the `getAppointments` branch; stands in for `JSON.stringify` and
`toLocaleString`. -/
def renderApptSummary (a : Appointment) : String :=
  a.id ++ "|" ++ a.title ++ "|" ++ toString a.date ++ "|" ++ a.status

/-- The `try` block of `executeExpenseTool`: dispatch on the tool name;
a raised storage exception propagates. -/
def executeExpenseToolBody (name : String) (args : ToolArgs) (user : User)
    (st : Storage) : Except String (ToolResult × Storage) :=
  if name == "addExpense" then do
    let (e, st2) ← addExpenseS st user.email (args.amount.getD 0)
      (args.category.getD "") (args.description.getD "") (args.date.getD 0)
    return ({ result := some "Expense added successfully", expense := some e }, st2)
  else if name == "updateExpense" then do
    let all ← getExpensesS st user.email
    match all.find? (fun e => e.id == args.id.getD "") with
    | none => return ({ error := some "Expense not found" }, st)
    | some existing => do
      let st2 ← updateExpenseS st (mergeExpense existing args)
      return ({ result := some "Expense updated" }, st2)
  else if name == "setBudget" then do
    let updatedUser : User := { user with budget := args.amount }
    let (_, st2) ← updateUserS st updatedUser
    let msg := "Budget set to " ++ toString (args.amount.getD 0) ++ " DH"
    return ({ result := some msg, user := some updatedUser }, st2)
  else if name == "getExpenses" then do
    let expenses ← getExpensesS st user.email
    return ({ result := some (String.intercalate ";"
        ((expenses.take 10).map renderExpense)) }, st)
  else if name == "requestManualEntry" then
    return ({ result := some "Manual form requested" }, st)
  else if name == "addAppointment" then do
    let (appt, st2) ← addAppointmentS st user.email (args.title.getD "")
      (args.date.getD 0) (jsOrStr args.type "reminder")
    let msg := "Appointment scheduled: " ++ args.title.getD ""
      ++ " at " ++ toString (args.date.getD 0)
    return ({ result := some msg, appointment := some appt }, st2)
  else if name == "getAppointments" then do
    let appts ← getAppointmentsS st user.email
    return ({ result := some (String.intercalate ";"
        (appts.map renderApptSummary)) }, st)
  else if name == "updateAppointmentStatus" then do
    let all ← getAppointmentsS st user.email
    match all.find? (fun a => a.id == args.id.getD "") with
    | none => return ({ error := some "Appointment not found" }, st)
    | some existing => do
      let st2 ← updateAppointmentS st { existing with status := args.status.getD "" }
      return ({ result := some ("Appointment marked as " ++ args.status.getD "") }, st2)
  else if name == "deleteAppointment" then do
    let st2 ← deleteAppointmentS st (args.id.getD "")
    return ({ result := some "Appointment deleted" }, st2)
  else
    return ({ error := some "Unknown tool" }, st)

/-- `executeExpenseTool`: the body wrapped in the enclosing `catch`, which
turns a raised message into an `{ error: message }` result (the storage
visible to the caller is the pre-call one, since the modelled operations
raise without writing). -/
def executeExpenseTool (name : String) (args : ToolArgs) (user : User)
    (st : Storage) : ToolResult × Storage :=
  match executeExpenseToolBody name args user st with
  | Except.ok r => r
  | Except.error m => ({ error := some m }, st)

/-- The tool names `executeExpenseTool` dispatches on. -/
def knownToolNames : List String :=
  ["addExpense", "updateExpense", "setBudget", "getExpenses",
   "requestManualEntry", "addAppointment", "getAppointments",
   "updateAppointmentStatus", "deleteAppointment"]

/-- The tools whose branch performs a persistence operation (everything
except the pure `requestManualEntry` signal and the unknown-name branch). -/
def storageToolNames : List String :=
  ["addExpense", "updateExpense", "setBudget", "getExpenses",
   "addAppointment", "getAppointments", "updateAppointmentStatus",
   "deleteAppointment"]

/-- No expense with the given id survives filtering and sorting when no
stored expense has that id. -/
theorem find_expense_id_none (l : List Expense) (email id : String)
    (h : ∀ e ∈ l, e.id ≠ id) :
    (sortListBy (fun a b => decide (b.date ≤ a.date))
        (l.filter (fun e => e.userId == email))).find?
        (fun e => e.id == id) = none := by
  rw [List.find?_eq_none]
  intro x hx
  rw [mem_sortListBy] at hx
  simpa using h x (List.mem_filter.mp hx).1

/-- No appointment with the given id survives filtering and sorting when
no stored appointment has that id. -/
theorem find_appt_id_none (l : List Appointment) (email id : String)
    (h : ∀ a ∈ l, a.id ≠ id) :
    (sortListBy (fun a b => decide (a.date ≤ b.date))
        (l.filter (fun a => a.userId == email))).find?
        (fun a => a.id == id) = none := by
  rw [List.find?_eq_none]
  intro x hx
  rw [mem_sortListBy] at hx
  simpa using h x (List.mem_filter.mp hx).1

/-- Filtering out an id that is absent leaves the appointment list as is. -/
theorem filter_absent_id (l : List Appointment) (id : String)
    (h : ∀ a ∈ l, a.id ≠ id) :
    l.filter (fun a => !(a.id == id)) = l := by
  rw [List.filter_eq_self]
  intro x hx
  simpa using h x hx

/-- Claim C8: calling the tool bridge with an id that matches no stored
record gives a NotFound-style error result for `updateExpense` and
`updateAppointmentStatus` with the storage untouched, while
`deleteAppointment` is an idempotent no-op success. -/
theorem tool_unknown_id_behavior (user : User) (st : Storage) (id : String)
    (hfail : st.fail = none)
    (hexp : ∀ e ∈ st.expenses, e.id ≠ id)
    (happt : ∀ a ∈ st.appointments, a.id ≠ id) :
    executeExpenseTool "updateExpense" { id := some id } user st
        = ({ error := some "Expense not found" }, st)
    ∧ executeExpenseTool "updateAppointmentStatus"
        { id := some id, status := some "completed" } user st
        = ({ error := some "Appointment not found" }, st)
    ∧ executeExpenseTool "deleteAppointment" { id := some id } user st
        = ({ result := some "Appointment deleted" }, st) := by
  refine ⟨?_, ?_, ?_⟩
  · have hf := find_expense_id_none st.expenses user.email id hexp
    simp [executeExpenseTool, executeExpenseToolBody, getExpensesS,
      Storage.check, hfail, hf, Bind.bind, Except.bind, Pure.pure, Except.pure]
  · have hf := find_appt_id_none st.appointments user.email id happt
    simp [executeExpenseTool, executeExpenseToolBody, getAppointmentsS,
      Storage.check, hfail, hf, Bind.bind, Except.bind, Pure.pure, Except.pure]
  · have hf := filter_absent_id st.appointments id happt
    simp [executeExpenseTool, executeExpenseToolBody, deleteAppointmentS,
      Storage.check, hfail, hf, Bind.bind, Except.bind, Pure.pure, Except.pure]
    rw [← hfail]

/-- The user owning `storageOne`. -/
def userOne : User :=
  { email := "u@example.com", name := "U", budget := some 5000 }

/-- A concrete stored expense. -/
def expenseOne : Expense :=
  { id := "e1", userId := "u@example.com", amount := 50, category := "Food",
    description := "lunch", date := 100, createdAt := 1 }

/-- A concrete storage holding one user, one expense and one appointment. -/
def storageOne : Storage :=
  { users := [userOne], expenses := [expenseOne], appointments := [apptAtZero],
    currentUser := none, fail := none, nextId := 0, now := 0 }

/-- Witness for C8 at a concrete storage and the unknown id "zz". -/
theorem tool_unknown_id_behavior_witness :
    executeExpenseTool "deleteAppointment" { id := some "zz" } userOne storageOne
      = ({ result := some "Appointment deleted" }, storageOne) := by
  have h := tool_unknown_id_behavior userOne storageOne "zz" (by decide)
    (by decide) (by decide)
  exact h.2.2

/-- Claim C9: the tool bridge always returns a result object, never a
raised exception: an unrecognized tool name yields the error result
"Unknown tool"; any message raised by the dispatch body is caught and
returned as an error result; with a pending storage exception every
persistence-touching tool returns exactly that message as its error
result, leaving the storage unchanged. -/
theorem tool_bridge_never_throws (name : String) (args : ToolArgs)
    (user : User) (st : Storage) :
    (name ∉ knownToolNames →
      executeExpenseTool name args user st = ({ error := some "Unknown tool" }, st))
    ∧ (∀ m, executeExpenseToolBody name args user st = Except.error m →
        executeExpenseTool name args user st = ({ error := some m }, st))
    ∧ (∀ m, st.fail = some m → name ∈ storageToolNames →
        executeExpenseTool name args user st = ({ error := some m }, st)) := by
  refine ⟨?_, ?_, ?_⟩
  · intro h
    simp [knownToolNames] at h
    obtain ⟨h1, h2, h3, h4, h5, h6, h7, h8, h9⟩ := h
    simp [executeExpenseTool, executeExpenseToolBody, Pure.pure, Except.pure,
      h1, h2, h3, h4, h5, h6, h7, h8, h9]
  · intro m hm
    simp [executeExpenseTool, hm]
  · intro m hm hmem
    simp [storageToolNames] at hmem
    rcases hmem with h | h | h | h | h | h | h | h <;> subst h <;>
      simp [executeExpenseTool, executeExpenseToolBody, addExpenseS,
        getExpensesS, updateUserS, addAppointmentS, getAppointmentsS,
        updateAppointmentS, deleteAppointmentS, Storage.check, hm,
        Bind.bind, Except.bind, Pure.pure, Except.pure]

/-- Witness for C9: the unknown name "fooTool", and a failing storage
seen through `setBudget`. -/
theorem tool_bridge_never_throws_witness :
    executeExpenseTool "fooTool" {} userOne storageOne
      = ({ error := some "Unknown tool" }, storageOne)
    ∧ executeExpenseTool "setBudget" { amount := some 7 } userOne
        { storageOne with fail := some "QuotaExceeded" }
      = ({ error := some "QuotaExceeded" },
         { storageOne with fail := some "QuotaExceeded" }) :=
  ⟨(tool_bridge_never_throws "fooTool" {} userOne storageOne).1 (by decide),
   (tool_bridge_never_throws "setBudget" { amount := some 7 } userOne
      { storageOne with fail := some "QuotaExceeded" }).2.2 "QuotaExceeded"
      rfl (by decide)⟩

/-- The user record `register` persists: budget `user.budget || 5000`. -/
def registeredUser (u : User) : User :=
  { u with budget := some (jsOrInt u.budget 5000) }

/-- The storage after a successful `register`: the new user appended and
made current. -/
def registeredStorage (st : Storage) (u : User) : Storage :=
  { st with users := st.users ++ [registeredUser u], currentUser := some (registeredUser u) }

/-- Claim C10: `register` persists budget `user.budget || 5000`: an absent
budget or an explicit 0 stores 5000; any positive budget is stored
unchanged. The registered user is appended and keeps email and name. -/
theorem register_budget_default (st : Storage) (u : User)
    (hfail : st.fail = none)
    (hnew : ∀ x ∈ st.users, x.email ≠ u.email) :
    ∃ nu st2, register st u = Except.ok (nu, st2)
      ∧ nu ∈ st2.users ∧ nu.email = u.email ∧ nu.name = u.name
      ∧ ((u.budget = none ∨ u.budget = some 0) → nu.budget = some 5000)
      ∧ (∀ b : Int, u.budget = some b → 0 < b → nu.budget = some b) := by
  have hany : st.users.any (fun x => x.email == u.email) = false := by
    rw [List.any_eq_false]
    intro x hx
    simpa using hnew x hx
  have hok : register st u
      = Except.ok (registeredUser u, registeredStorage st u) := by
    simp [register, registeredUser, registeredStorage, Storage.check, hfail,
      hany, Bind.bind, Except.bind, Pure.pure, Except.pure]
  refine ⟨registeredUser u, registeredStorage st u, hok, ?_, rfl, rfl, ?_, ?_⟩
  · simp [registeredStorage]
  · rintro (h | h) <;> simp [registeredUser, jsOrInt, h]
  · intro b hb hpos
    simp [registeredUser, jsOrInt, hb]
    omega

/-- Witness for C10: registering with an explicit budget of 0 stores 5000. -/
theorem register_budget_default_witness :
    ∃ nu st2, register { storageOne with users := [] }
        { email := "n@example.com", name := "N", budget := some 0 }
        = Except.ok (nu, st2) ∧ nu.budget = some 5000 := by
  obtain ⟨nu, st2, hok, _, _, _, hzero, _⟩ :=
    register_budget_default { storageOne with users := [] }
      { email := "n@example.com", name := "N", budget := some 0 }
      rfl (by intro x hx; simp [storageOne] at hx)
  exact ⟨nu, st2, hok, hzero (Or.inr rfl)⟩

/-! ### ChatDispatcher (`handleSend` and `sendMessageWithRetry`,
src/components/ChatBot.tsx lines 225-329)

A model reply carries `result.text || ''` and `result.functionCalls`;
`handleSend`'s function-call loop builds one `functionResponse` per call,
then sends them back in a single follow-up message and replaces the reply
text by the follow-up's. The displayed messages appended after that block
(lines 311-320) are modelled by `finalMessages`. -/

/-- One function call of a model reply. -/
structure FunctionCall where
  id : String
  name : String
  args : ToolArgs
deriving DecidableEq, Repr

/-- A model reply: its text (`result.text || ''`) and function calls. -/
structure ModelReply where
  text : String
  functionCalls : List FunctionCall
deriving DecidableEq, Repr

/-- A conversation message as `setMessages` appends them. -/
structure Message where
  role : String
  text : String := ""
  isForm : Bool := false
  prefilledDescription : Option String := none
  expenseData : Option Expense := none
  appointmentData : Option Appointment := none
  isError : Bool := false
deriving DecidableEq, Repr

/-- What the dispatcher puts under `response` in a `functionResponse`
part: the literal acknowledgment string for the manual-entry pseudo-tool,
or the whole tool result object. -/
inductive ToolResponsePayload where
  | ack (s : String)
  | result (r : ToolResult)
deriving DecidableEq, Repr

/-- One `functionResponse` part sent back to the model. -/
structure FunctionResponsePart where
  id : String
  name : String
  response : ToolResponsePayload
deriving DecidableEq, Repr

/-- The `msgExtra` accumulator: whole-object assignment, so the latest
created expense or appointment snapshot wins. -/
inductive MsgExtra where
  | none
  | expense (e : Expense)
  | appointment (a : Appointment)
deriving DecidableEq, Repr

/-- The "form requested" message appended for `requestManualEntry`. -/
def formMessage (prefill : Option String) : Message :=
  { role := "model", isForm := true, prefilledDescription := prefill }

/-- The model message appended at the end of a turn: the reply text plus
the spread of `msgExtra`. -/
def mkModelMessage (text : String) (extra : MsgExtra) : Message :=
  { role := "model", text := text,
    expenseData := match extra with
                   | MsgExtra.expense e => some e
                   | _ => Option.none,
    appointmentData := match extra with
                       | MsgExtra.appointment a => some a
                       | _ => Option.none }

/-- The accumulator of `handleSend`'s function-call loop. -/
structure LoopState where
  storage : Storage
  responses : List FunctionResponsePart
  appended : List Message
  msgExtra : MsgExtra
deriving Repr

/-- One iteration of the loop over `result.functionCalls`:
`requestManualEntry` appends the form message and an acknowledgment
response; every other name runs the tool bridge, records the created
expense or appointment snapshot when present, and appends the correlated
tool result. -/
def processCall (user : User) (acc : LoopState) (fc : FunctionCall) : LoopState :=
  if fc.name == "requestManualEntry" then
    { acc with
      appended := acc.appended ++ [formMessage fc.args.prefilledDescription],
      responses := acc.responses ++
        [{ id := fc.id, name := fc.name,
           response := ToolResponsePayload.ack "Form shown" }] }
  else
    let r := executeExpenseTool fc.name fc.args user acc.storage
    let extra :=
      if fc.name == "addExpense" then
        match r.1.expense with
        | some e => MsgExtra.expense e
        | Option.none => acc.msgExtra
      else if fc.name == "addAppointment" then
        match r.1.appointment with
        | some a => MsgExtra.appointment a
        | Option.none => acc.msgExtra
      else acc.msgExtra
    { storage := r.2,
      responses := acc.responses ++
        [{ id := fc.id, name := fc.name,
           response := ToolResponsePayload.result r.1 }],
      appended := acc.appended,
      msgExtra := extra }

/-- The whole function-call loop, started from an empty accumulator. -/
def processFunctionCalls (user : User) (fcs : List FunctionCall)
    (st : Storage) : LoopState :=
  fcs.foldl (processCall user)
    { storage := st, responses := [], appended := [], msgExtra := MsgExtra.none }

/-- Lines 311-320 of ChatBot.tsx: a nonempty reply text is appended with
the `msgExtra` spread; an empty text with a recorded expense or
appointment snapshot appends the synthesized confirmation "Safi tqiyed.";
otherwise nothing is appended. -/
def finalMessages (responseText : String) (extra : MsgExtra) : List Message :=
  if responseText == "" then
    match extra with
    | MsgExtra.none => []
    | _ => [mkModelMessage "Safi tqiyed." extra]
  else
    [mkModelMessage responseText extra]

/-- The observable outcome of one resolved turn. -/
structure TurnResult where
  responseText : String
  followUps : List (List FunctionResponsePart)
  messages : List Message
  storage : Storage
deriving Repr

/-- One turn of `handleSend` after the initial send succeeded with reply
`orig`: when function calls are present, the loop runs, the collected
responses go out as one follow-up message, whose reply `followUp`
supplies the final text; the appended display messages follow lines
311-320. -/
def resolveTurn (user : User) (orig followUp : ModelReply) (st : Storage) :
    TurnResult :=
  if orig.functionCalls.isEmpty then
    { responseText := orig.text, followUps := [],
      messages := finalMessages orig.text MsgExtra.none, storage := st }
  else
    let ls := processFunctionCalls user orig.functionCalls st
    { responseText := followUp.text, followUps := [ls.responses],
      messages := ls.appended ++ finalMessages followUp.text ls.msgExtra,
      storage := ls.storage }

/-- `sendMessageWithRetry`'s loop (ChatBot.tsx lines 241-254): at most
`fuel` more attempts starting at index `i`; a failure records the error,
waits `1000 * (i + 1)` ms (collected in `delays`) and continues; exhausted
fuel surfaces the last error. -/
def retryFrom (attempt : Nat → Except String ModelReply) :
    Nat → Nat → String → List Nat → Except String ModelReply × List Nat
  | 0, _, lastError, delays => (Except.error lastError, delays)
  | fuel + 1, i, lastError, delays =>
    match attempt i with
    | Except.ok r => (Except.ok r, delays)
    | Except.error e => retryFrom attempt fuel (i + 1) e (delays ++ [1000 * (i + 1)])

/-- `sendMessageWithRetry`: three attempts, linear backoff, last error
surfaced. The second component lists the backoff waits performed. -/
def sendMessageWithRetry (attempt : Nat → Except String ModelReply) :
    Except String ModelReply × List Nat :=
  retryFrom attempt 3 0 "" []

/-- The (id, name) pair of a response part, for correlation. -/
def respIdName (r : FunctionResponsePart) : String × String :=
  (r.id, r.name)

/-- The (id, name) pair of a function call, for correlation. -/
def callIdName (fc : FunctionCall) : String × String :=
  (fc.id, fc.name)

/-- A mutating tool, as the claims word it: one whose branch writes to
persistence (modelled from the spec's tool taxonomy in section 4.1). -/
def specMutatingTool (name : String) : Bool :=
  name == "addExpense" || name == "updateExpense" || name == "setBudget" ||
    name == "addAppointment" || name == "updateAppointmentStatus" ||
    name == "deleteAppointment"

/-- Each loop iteration appends exactly one response part, correlated to
its function call by id (and name). -/
theorem processCall_responses (user : User) (acc : LoopState)
    (fc : FunctionCall) :
    ∃ p, (processCall user acc fc).responses = acc.responses ++ [p]
      ∧ respIdName p = callIdName fc := by
  by_cases h : (fc.name == "requestManualEntry") = true
  · exact ⟨⟨fc.id, fc.name, ToolResponsePayload.ack "Form shown"⟩,
      by simp [processCall, h], rfl⟩
  · exact ⟨⟨fc.id, fc.name, ToolResponsePayload.result
        (executeExpenseTool fc.name fc.args user acc.storage).1⟩,
      by simp [processCall, h], rfl⟩

/-- The loop over K function calls produces the K correlated (id, name)
pairs, in order, appended to whatever the accumulator held. -/
theorem foldl_responses_map (user : User) (fcs : List FunctionCall)
    (acc : LoopState) :
    ((fcs.foldl (processCall user) acc).responses).map respIdName
      = acc.responses.map respIdName ++ fcs.map callIdName := by
  induction fcs generalizing acc with
  | nil => simp
  | cons fc rest ih =>
    rw [List.foldl_cons, ih]
    obtain ⟨p, hp, hpn⟩ := processCall_responses user acc fc
    simp [hp, hpn]

/-- Claim C5: a turn whose reply contains K ≥ 1 function calls sends
exactly one follow-up message, carrying exactly K tool results whose
(id, name) pairs are, in order, those of the K function calls; the turn's
final reply text is the follow-up's, not the original reply's. -/
theorem turn_toolresult_correlation (user : User) (orig followUp : ModelReply)
    (st : Storage) (h : orig.functionCalls ≠ []) :
    (resolveTurn user orig followUp st).followUps.length = 1
    ∧ (∀ rs ∈ (resolveTurn user orig followUp st).followUps,
        rs.map respIdName = orig.functionCalls.map callIdName)
    ∧ (resolveTurn user orig followUp st).responseText = followUp.text := by
  have hne : orig.functionCalls.isEmpty = false := by
    simpa [List.isEmpty_iff] using h
  refine ⟨by simp [resolveTurn, hne], ?_, by simp [resolveTurn, hne]⟩
  intro rs hrs
  simp [resolveTurn, hne] at hrs
  subst hrs
  have hmap := foldl_responses_map user orig.functionCalls
    { storage := st, responses := [], appended := [], msgExtra := MsgExtra.none }
  simpa [processFunctionCalls] using hmap

/-- A reply with two function calls: a schema-complete `addExpense`, then
a `getExpenses`. -/
def replyTwoCalls : ModelReply :=
  { text := "",
    functionCalls :=
      [⟨"call-1", "addExpense",
        { amount := some 50, category := some "Food",
          description := some "lunch", date := some 100 }⟩,
       ⟨"call-2", "getExpenses", {}⟩] }

/-- A follow-up reply with plain text and no further calls. -/
def replyFollowUp : ModelReply :=
  { text := "Tamam", functionCalls := [] }

/-- Witness for C5 on the two-call turn. -/
theorem turn_toolresult_correlation_witness :
    (resolveTurn userOne replyTwoCalls replyFollowUp storageOne).responseText
      = "Tamam"
    ∧ (resolveTurn userOne replyTwoCalls replyFollowUp storageOne).followUps.length
      = 1 := by
  have h := turn_toolresult_correlation userOne replyTwoCalls replyFollowUp
    storageOne (by decide)
  exact ⟨h.2.2, h.1⟩

/-- Claim C6: `sendMessageWithRetry` makes up to 3 attempts with backoffs
`1000 * (attempt index)` between them; success at any attempt yields that
result with only the backoffs already waited; three failures surface the
last error. -/
theorem send_retry_behavior (attempt : Nat → Except String ModelReply) :
    (∀ r, attempt 0 = Except.ok r →
        sendMessageWithRetry attempt = (Except.ok r, []))
    ∧ (∀ e0 r, attempt 0 = Except.error e0 → attempt 1 = Except.ok r →
        sendMessageWithRetry attempt = (Except.ok r, [1000]))
    ∧ (∀ e0 e1 r, attempt 0 = Except.error e0 → attempt 1 = Except.error e1 →
        attempt 2 = Except.ok r →
        sendMessageWithRetry attempt = (Except.ok r, [1000, 2000]))
    ∧ (∀ e0 e1 e2, attempt 0 = Except.error e0 → attempt 1 = Except.error e1 →
        attempt 2 = Except.error e2 →
        sendMessageWithRetry attempt = (Except.error e2, [1000, 2000, 3000])) := by
  refine ⟨?_, ?_, ?_, ?_⟩ <;> intros <;>
    simp [sendMessageWithRetry, retryFrom, *]

/-- An attempt oracle failing twice, then succeeding. -/
def attemptsFailTwice : Nat → Except String ModelReply :=
  fun i => if i < 2 then Except.error "boom" else Except.ok replyFollowUp

/-- Witness for C6: failure on attempts 1 and 2 and success on attempt 3
completes normally after the full backoff path. -/
theorem send_retry_behavior_witness :
    sendMessageWithRetry attemptsFailTwice
      = (Except.ok replyFollowUp, [1000, 2000]) :=
  (send_retry_behavior attemptsFailTwice).2.2.1 "boom" "boom" replyFollowUp
    rfl rfl rfl

/-- A reply whose single call deletes the stored appointment "a1". -/
def deleteCallReply : ModelReply :=
  { text := "", functionCalls := [⟨"call-9", "deleteAppointment", { id := some "a1" }⟩] }

/-- A follow-up reply with no text. -/
def emptyReply : ModelReply :=
  { text := "", functionCalls := [] }

/-- Claim C7 counterexample: `deleteAppointment` is a mutating tool and
succeeds here, the follow-up text is empty, yet the dispatcher appends no
message at all — the turn stays silent, against the claim's "for every
mutating tool". Only `addExpense`/`addAppointment` set the snapshot that
triggers the synthesized confirmation. -/
theorem silent_mutation_counterexample :
    specMutatingTool "deleteAppointment" = true
    ∧ (executeExpenseTool "deleteAppointment" { id := some "a1" }
        userOne storageOne).1.error = Option.none
    ∧ (executeExpenseTool "deleteAppointment" { id := some "a1" }
        userOne storageOne).1.result = some "Appointment deleted"
    ∧ (resolveTurn userOne deleteCallReply emptyReply storageOne).responseText = ""
    ∧ (resolveTurn userOne deleteCallReply emptyReply storageOne).messages = [] :=
  ⟨rfl, rfl, rfl, rfl, rfl⟩

/-- Claim C7 (amended): when the follow-up text is empty, the dispatcher
appends the synthesized confirmation "Safi tqiyed." exactly when the turn
recorded a created expense or appointment snapshot, and only the
`addExpense` and `addAppointment` branches can record one — successful
turns whose only mutations are updates, deletes or budget changes stay
silent. -/
theorem silent_turn_confirmation (user : User) (orig followUp : ModelReply)
    (st : Storage) (hfc : orig.functionCalls ≠ []) (hempty : followUp.text = "") :
    ((processFunctionCalls user orig.functionCalls st).msgExtra = MsgExtra.none →
        (resolveTurn user orig followUp st).messages
          = (processFunctionCalls user orig.functionCalls st).appended)
    ∧ ((processFunctionCalls user orig.functionCalls st).msgExtra ≠ MsgExtra.none →
        (resolveTurn user orig followUp st).messages
          = (processFunctionCalls user orig.functionCalls st).appended
            ++ [mkModelMessage "Safi tqiyed."
                  (processFunctionCalls user orig.functionCalls st).msgExtra])
    ∧ (∀ acc fc, fc.name ≠ "addExpense" → fc.name ≠ "addAppointment" →
        (processCall user acc fc).msgExtra = acc.msgExtra) := by
  have hne : orig.functionCalls.isEmpty = false := by
    simpa [List.isEmpty_iff] using hfc
  refine ⟨?_, ?_, ?_⟩
  · intro hx
    simp [resolveTurn, hne, hempty, finalMessages, hx]
  · intro hx
    cases hex : (processFunctionCalls user orig.functionCalls st).msgExtra with
    | none => exact absurd hex hx
    | expense e => simp [resolveTurn, hne, hempty, finalMessages, hex]
    | appointment a => simp [resolveTurn, hne, hempty, finalMessages, hex]
  · intro acc fc h1 h2
    by_cases hm : (fc.name == "requestManualEntry") = true
    · simp [processCall, hm]
    · simp [processCall, hm, h1, h2]

/-- A reply whose single call schedules a new appointment. -/
def addApptCallReply : ModelReply :=
  { text := "",
    functionCalls :=
      [⟨"call-3", "addAppointment",
        { title := some "Meet", date := some 500, type := some "meeting" }⟩] }

/-- Witness for the amended C7: a successful `addAppointment` with empty
follow-up text does append the synthesized confirmation. -/
theorem silent_turn_confirmation_witness :
    (resolveTurn userOne addApptCallReply emptyReply storageOne).messages
      = (processFunctionCalls userOne addApptCallReply.functionCalls storageOne).appended
        ++ [mkModelMessage "Safi tqiyed."
              (processFunctionCalls userOne addApptCallReply.functionCalls
                storageOne).msgExtra] :=
  (silent_turn_confirmation userOne addApptCallReply emptyReply storageOne
    (by decide) rfl).2.1 (by decide)

/-! ### LiveSessionManager (LiveAssistant, src/components/Appointments.tsx)

The microphone handler (`onaudioprocess`, lines 441-448) tests
`isMuted || closingRef.current` before encoding (`createPcmBlob`, an
external utility modelled as an abstract encoder) and streaming the blob.
`isMuted`, however, is a `useState` value, not a ref: `connect()` runs
exactly once, from the `useEffect` with an empty dependency list (lines
502-512), so the installed handler closes over the mount-render binding
of `isMuted` — permanently `false` — and the mute button's `setIsMuted`
re-renders the component without ever reaching the closure. `LiveMicState`
keeps the two values apart: `isMuted` is what the UI state holds (the
session's Listening/Muted sub-state), `capturedIsMuted` is what the
handler reads. The playback side (`onmessage`, lines 471-489) reads only
refs, schedules each decoded frame at `max(nextStartTime, currentTime)`,
advances the cursor by the frame's duration and tracks the source in a
live set; an interruption signal stops every tracked source, clears the
set and resets the cursor to 0, so the next frame starts at the clock's
current time. Times are rationals (seconds, the AudioContext clock). -/

/-- The body of the microphone capture handler, over whatever muted flag
the closure reads: `none` means the frame is discarded before encoding
(nothing streamed); `some b` means the encoded blob `b` is streamed over
the channel. -/
def onAudioProcess {Frame Blob : Type} (createPcmBlob : Frame → Blob)
    (isMuted closing : Bool) (frame : Frame) : Option Blob :=
  if isMuted || closing then Option.none
  else some (createPcmBlob frame)

/-- The mute-related state of one `LiveAssistant` session: the current
`useState` value (which the UI and the visualizer follow) and the value
the installed `onaudioprocess` closure captured when `connect` ran. -/
structure LiveMicState where
  isMuted : Bool
  capturedIsMuted : Bool
deriving DecidableEq, Repr

/-- Mounting the component: `useState(false)`, then `connect()` runs once
from the empty-dependency `useEffect` and installs the handler, capturing
the mount-render `isMuted`. -/
def mountLiveAssistant : LiveMicState :=
  { isMuted := false, capturedIsMuted := false }

/-- The mute button (`setIsMuted(!isMuted)`, line 562): re-renders with
the flipped state, but the already-installed closure is untouched. -/
def toggleMute (st : LiveMicState) : LiveMicState :=
  { st with isMuted := !st.isMuted }

/-- A microphone frame arriving at the installed handler: the guard runs
on the captured flag, not on the session's current muted state. -/
def micFrame {Frame Blob : Type} (createPcmBlob : Frame → Blob)
    (st : LiveMicState) (closing : Bool) (frame : Frame) : Option Blob :=
  onAudioProcess createPcmBlob st.capturedIsMuted closing frame

/-- The output scheduling state: the playback cursor, the live set of
scheduled/playing sources (by id) and the sources stopped so far. -/
structure LiveAudioState where
  nextStartTime : ℚ
  playing : List Nat
  stopped : List Nat
deriving DecidableEq, Repr

/-- Arrival of one decoded audio frame (`onmessage`, lines 471-483): the
cursor is clamped to the current clock, the source starts at the clamped
cursor, the cursor advances by the frame duration, and the source joins
the live set. Returns the new state and the scheduled start time. -/
def onAudioFrame (st : LiveAudioState) (currentTime duration : ℚ)
    (srcId : Nat) : LiveAudioState × ℚ :=
  let start := max st.nextStartTime currentTime
  ({ nextStartTime := start + duration, playing := srcId :: st.playing,
     stopped := st.stopped }, start)

/-- The interruption branch (`onmessage`, lines 485-489): stop every
tracked source, clear the live set, reset the cursor to 0. -/
def onInterrupted (st : LiveAudioState) : LiveAudioState :=
  { nextStartTime := 0, playing := [], stopped := st.stopped ++ st.playing }

/-- The `ended` listener (line 479): a source that finished playing
leaves the live set. -/
def onSourceEnded (st : LiveAudioState) (srcId : Nat) : LiveAudioState :=
  { st with playing := st.playing.erase srcId }

/-- Claim C3, failing input: open the session, press the mute button (the
session is now in the Muted state), then let a frame arrive. The claim
says the frame is discarded before encoding and nothing is streamed; the
program encodes and streams it anyway, because the installed handler
reads the mount-render `isMuted` (false), never the toggled state — the
guard on line 442 shows discarding was the intent, so the code, not the
claim, is at fault. -/
theorem muted_state_never_reaches_handler :
    (toggleMute mountLiveAssistant).isMuted = true
    ∧ (toggleMute mountLiveAssistant).capturedIsMuted = false
    ∧ micFrame (fun n : Nat => n + 1) (toggleMute mountLiveAssistant) false 7
        = some 8
    ∧ (∀ st : LiveMicState, ∀ closing : Bool,
        (toggleMute st).capturedIsMuted = st.capturedIsMuted
        ∧ micFrame (fun n : Nat => n + 1) (toggleMute st) closing 7
            = micFrame (fun n : Nat => n + 1) st closing 7) :=
  ⟨rfl, rfl, rfl, fun _ _ => ⟨rfl, rfl⟩⟩

/-- Claim C4: an interruption stops all N tracked sources, empties the
live set and resets the cursor, so the next inbound frame is scheduled to
start exactly at the current clock time, not after the discarded audio. -/
theorem interruption_resets_playback (st : LiveAudioState)
    (currentTime duration : ℚ) (srcId : Nat) (hct : 0 ≤ currentTime) :
    (onInterrupted st).playing = []
    ∧ (∀ s ∈ st.playing, s ∈ (onInterrupted st).stopped)
    ∧ (onInterrupted st).nextStartTime = 0
    ∧ (onAudioFrame (onInterrupted st) currentTime duration srcId).2
        = currentTime := by
  refine ⟨rfl, ?_, rfl, ?_⟩
  · intro s hs
    simp [onInterrupted, hs]
  · simp [onAudioFrame, onInterrupted, max_eq_right hct]

/-- Witness for C4: three sources are live, the clock stands at 5/2 s. -/
theorem interruption_resets_playback_witness :
    (onInterrupted ⟨10, [1, 2, 3], []⟩).playing = []
    ∧ (onAudioFrame (onInterrupted ⟨10, [1, 2, 3], []⟩) (5 / 2) 1 4).2 = 5 / 2 := by
  have h := interruption_resets_playback ⟨10, [1, 2, 3], []⟩ (5 / 2) 1 4
    (by norm_num)
  exact ⟨h.1, h.2.2.2⟩

end Masarif
